import Mathlib

/-!
Shallow embedding of `src/packages/core/src/commands/build.js` (phenomic's
build orchestrator) and proofs about its claimed properties.

Modelling conventions:
* Asynchronous JS operations become pure values/functions; a rejected promise
  or a thrown error becomes `Except.error`.
* Observable side effects (rimraf, server listen/close, warnings, renderStatic
  invocations, writeFile calls) are recorded in an explicit `Event` trace.
* Plugin capabilities are `Option`-valued fields: `none` models the absence of
  a callable under that name (the JS truthiness / `typeof === "function"`
  checks).  Capability functions are modelled as already closed over the
  build's config and fetch bridge, since `Config` contains the plugin list and
  therefore cannot appear in a plugin field's type.
* `pMap(urls, f, {concurrency: 50})` is modelled twice: a sequential fail-fast
  fold (one admissible schedule, enough for the trace-level claims) and a
  nondeterministic transition system `PMapStep` for the concurrency-cap claim.
-/

namespace Phenomic

/-- Opaque artifact returned by the bundler plugin's `build` phase. -/
abbrev Assets := Nat

/-- Opaque artifact returned by `buildForPrerendering`. -/
abbrev App := Nat

/-- Opaque route table returned by `getRoutes(app)`. -/
abbrev Routes := Nat

/-- A URL/location string produced by `resolveURLs`. -/
abbrev Location := String

/-- `{path, contents}` pair returned by `renderStatic` for one location. -/
structure RenderedFile where
  path : String
  contents : String
deriving DecidableEq, Repr

/-- A discovered content file, as produced by the `oneShot` directory scan. -/
structure ContentFile where
  name : String
deriving DecidableEq, Repr

/-- A record persisted into the content store (`db`). -/
structure ContentRecord where
  id : String
  data : String
deriving DecidableEq, Repr

/-- Errors the build can raise.  Constructors for each `throw new Error(...)`
site in `build.js`, `uriError` for a `decodeURIComponent` throw, and
`raised n` for an arbitrary error coming out of external plugin code. -/
inductive Err where
  | transformRequired
  | collectorRequired
  | bundlerBuild
  | bundlerBuildForPrerendering
  | rendererGetRoutes
  | urlsResolver
  | rendererRenderStatic
  | uriError
  | raised (code : Nat)
deriving DecidableEq, Repr

/-- The message carried by each `Error` thrown in `build.js`, verbatim. -/
def Err.message : Err → String
  | .transformRequired => "Phenomic expects at least a transform plugin"
  | .collectorRequired => "Phenomic expects at least a collector plugin"
  | .bundlerBuild => "a bundler is required (plugin implementing \x60build\x60)"
  | .bundlerBuildForPrerendering =>
      "a bundler is required (plugin implementing \x60buildForPrerendering\x60)"
  | .rendererGetRoutes => "a renderer is required (plugin implementing \x60getRoutes\x60)"
  | .urlsResolver => "an urls-resolver is required (plugin implementing resolveURLs)"
  | .rendererRenderStatic =>
      "a renderer is required (plugin implementing \x27renderStatic\x27)"
  | .uriError => "URI malformed"
  | .raised n => "plugin error " ++ toString n

/-- Observable side effects of a build, in program order. -/
inductive Event where
  | cleaned (dir : String)
  | serverListen
  | serverClose
  | warnNoContentDir
  | warnNoURLs
  | renderCall (location : String)
  | fileWrite (path : String) (contents : String)
deriving DecidableEq, Repr

/-- A plugin: a named bundle of optional capabilities (duck-typed in JS,
`Option`-typed here).  `transform`/`collect` only matter through their
presence (their per-file behaviour lives inside the external `processFile`),
so they are booleans; the other capabilities carry their modelled results. -/
structure Plugin where
  name : String
  transform : Bool
  collect : Bool
  beforeBuild : Option (Except Err Unit)
  build : Option (Except Err Assets)
  buildForPrerendering : Option (Except Err App)
  getRoutes : Option (App → Routes)
  resolveURLs : Option (Routes → Except Err (List Location))
  renderStatic : Option (App → Assets → Location → Except Err (List RenderedFile))

/-- Build configuration plus the environment facts the build depends on:
whether `getPath(path.join(config.path, config.content))` resolves
(`contentDirExists`), the files the `oneShot` scan returns, and the effect of
the external `processFile` on each file.

Modelled from the spec: `processFile` (imported from
`../injection/processFile`, not under `src/`) runs a discovered file through
the transform chain then the collect chain, persisting content records into
the store; it is modelled as an environment-supplied function from a file to
the records it persists, or the failure it propagates. -/
structure Config where
  path : String
  content : String
  outdir : String
  plugins : List Plugin
  contentDirExists : Bool
  files : List ContentFile
  processFile : ContentFile → Except Err (List ContentRecord)

/-- One nibble of a percent escape: the numeric value of a hex digit. -/
def hexDigit (c : Char) : Option Nat :=
  if c.toNat ≥ 48 ∧ c.toNat ≤ 57 then some (c.toNat - 48)
  else if c.toNat ≥ 65 ∧ c.toNat ≤ 70 then some (c.toNat - 55)
  else if c.toNat ≥ 97 ∧ c.toNat ≤ 102 then some (c.toNat - 87)
  else none

/-- Percent-decoding of a character list: each `%HH` escape becomes the
character with code `HH`.  This models the JS builtin on single-byte
sequences (the only ones the build's claims exercise); a malformed escape
makes the builtin throw `URIError`, modelled as `none`. -/
def percentDecodeChars : List Char → Option (List Char)
  | [] => some []
  | '%' :: h1 :: h2 :: rest =>
    match hexDigit h1, hexDigit h2 with
    | some a, some b => (percentDecodeChars rest).map (Char.ofNat (16 * a + b) :: ·)
    | _, _ => none
  | '%' :: _ => none
  | c :: rest => (percentDecodeChars rest).map (c :: ·)

/-- Model of the JS builtin `decodeURIComponent` (see `percentDecodeChars`). -/
def decodeURIComponent (s : String) : Option String :=
  (percentDecodeChars s.toList).map fun cs => String.mk cs

/-- Model of Node's `path.join` for the shapes the build produces: a base
directory joined with a plain relative path (no `.`/`..` normalization is
exercised). -/
def pathJoin (a b : String) : String :=
  if a = "" then b
  else if b = "" then a
  else if a.data.getLast? = some '/' then a ++ b
  else a ++ "/" ++ b

/-- First plugin in registration order with a `buildForPrerendering`
capability — `config.plugins.filter(p => p.buildForPrerendering)[0]`. -/
def selectBundler (plugins : List Plugin) : Option Plugin :=
  (plugins.filter fun p => p.buildForPrerendering.isSome).head?

/-- First plugin with a `getRoutes` capability —
`config.plugins.filter(p => p.getRoutes)[0]`. -/
def selectRenderer (plugins : List Plugin) : Option Plugin :=
  (plugins.filter fun p => p.getRoutes.isSome).head?

/-- First plugin with a `resolveURLs` capability —
`config.plugins.filter(p => p.resolveURLs)[0]`. -/
def selectResolver (plugins : List Plugin) : Option Plugin :=
  (plugins.filter fun p => p.resolveURLs.isSome).head?

/-- `Promise.all(config.plugins.map(p => p.beforeBuild && p.beforeBuild(config)))`:
every defined hook runs; the first rejection (here: first in list order)
rejects the whole group. -/
def runBeforeBuild : List Plugin → Except Err Unit
  | [] => .ok ()
  | p :: rest =>
    match p.beforeBuild with
    | some (.error e) => .error e
    | _ => runBeforeBuild rest

/-- `Promise.all(files.map(file => processFile({...})))`: process every file,
collecting the records each one persists; the first failure rejects the
whole ingestion. -/
def processAll (processFile : ContentFile → Except Err (List ContentRecord)) :
    List ContentFile → Except Err (List ContentRecord)
  | [] => .ok []
  | f :: rest =>
    match processFile f with
    | .error e => .error e
    | .ok recs =>
      match processAll processFile rest with
      | .error e => .error e
      | .ok more => .ok (recs ++ more)

/-- `getContent(db, config)` from `build.js`: check the transform and collect
plugin chains are non-empty, resolve the content path (a miss is a warning,
not an error), and when it exists destroy the store and reingest every file.
Returns the new store contents together with the warnings emitted. -/
def getContent (db : List ContentRecord) (config : Config) :
    Except Err (List ContentRecord) × List Event :=
  if (config.plugins.filter fun p => p.transform).isEmpty then
    (.error .transformRequired, [])
  else if (config.plugins.filter fun p => p.collect).isEmpty then
    (.error .collectorRequired, [])
  else if config.contentDirExists then
    match processAll config.processFile config.files with
    | .error e => (.error e, [])
    | .ok recs => (.ok recs, [])
  else
    (.ok db, [Event.warnNoContentDir])

/-- The bundling prefix of the `try` block: select the bundler
(`filter(p => p.buildForPrerendering)[0]`, a pure selection hoisted past the
hooks here; the source computes it just before them), run the `beforeBuild`
hooks, check `bundler && bundler.build`, await `bundler.build`, check
`bundler.buildForPrerendering` (never missing after selection, kept from the
source), await it. -/
def stageBundle (config : Config) : Except Err (Assets × App) :=
  match runBeforeBuild config.plugins with
  | .error e => .error e
  | .ok _ =>
    match selectBundler config.plugins with
    | none => .error .bundlerBuild
    | some bundler =>
      match bundler.build with
      | none => .error .bundlerBuild
      | some (.error e) => .error e
      | some (.ok assets) =>
        match bundler.buildForPrerendering with
        | none => .error .bundlerBuildForPrerendering
        | some (.error e) => .error e
        | some (.ok app) => .ok (assets, app)

/-- The routing segment of the `try` block: select the renderer
(`filter(p => p.getRoutes)[0]`) and the urls-resolver
(`filter(p => p.resolveURLs)[0]`), then
`await resolveURLs(getRoutes(app), phenomicFetch)`.  Returns the renderer
(needed later for `renderStatic`) and the resolved URL list. -/
def stageRouting (config : Config) (app : App) :
    Except Err (Plugin × List Location) :=
  match selectRenderer config.plugins with
  | none => .error .rendererGetRoutes
  | some renderer =>
    match renderer.getRoutes with
    | none => .error .rendererGetRoutes
    | some getRoutes =>
      match selectResolver config.plugins with
      | none => .error .urlsResolver
      | some resolver =>
        match resolver.resolveURLs with
        | none => .error .urlsResolver
        | some resolveURLs =>
          match resolveURLs (getRoutes app) with
          | .error e => .error e
          | .ok urls => .ok (renderer, urls)

/-- `Promise.all(files.map(file => writeFile(path.join(config.outdir,
decodeURIComponent(file.path)), file.contents)))`: each write call is built
in list order; a `decodeURIComponent` throw aborts before the remaining
writes are issued. -/
def writeRendered (outdir : String) : List RenderedFile → Except Err Unit × List Event
  | [] => (.ok (), [])
  | f :: rest =>
    match decodeURIComponent f.path with
    | none => (.error .uriError, [])
    | some p =>
      ((writeRendered outdir rest).1,
        Event.fileWrite (pathJoin outdir p) f.contents :: (writeRendered outdir rest).2)

/-- `prerenderFileAndDependencies` from `build.js`: check
`renderer && renderer.renderStatic`, await `renderer.renderStatic({...})`,
then write every returned file under the output directory. -/
def prerenderFileAndDependencies (config : Config) (renderer : Plugin)
    (app : App) (assets : Assets) (location : Location) :
    Except Err Unit × List Event :=
  match renderer.renderStatic with
  | none => (.error .rendererRenderStatic, [])
  | some renderStatic =>
    match renderStatic app assets location with
    | .error e => (.error e, [Event.renderCall location])
    | .ok files =>
      ((writeRendered config.outdir files).1,
        Event.renderCall location :: (writeRendered config.outdir files).2)

/-- `pMap(urls, location => prerenderFileAndDependencies({...}),
{concurrency: 50})`, as the sequential fail-fast schedule: each URL is
rendered and written in order, the first failure rejects the whole fan-out. -/
def prerenderAll (config : Config) (renderer : Plugin) (app : App)
    (assets : Assets) : List Location → Except Err Unit × List Event
  | [] => (.ok (), [])
  | u :: rest =>
    match (prerenderFileAndDependencies config renderer app assets u).1 with
    | .error e => (.error e, (prerenderFileAndDependencies config renderer app assets u).2)
    | .ok _ =>
      ((prerenderAll config renderer app assets rest).1,
        (prerenderFileAndDependencies config renderer app assets u).2
          ++ (prerenderAll config renderer app assets rest).2)

/-- The body of the `try` block of `build`: bundling, content ingestion,
routing, the empty-URL warning, and the prerender fan-out, in source order.
Returns the build outcome (the new store contents on success) and the body's
event trace. -/
def buildBody (db0 : List ContentRecord) (config : Config) :
    Except Err (List ContentRecord) × List Event :=
  match stageBundle config with
  | .error e => (.error e, [])
  | .ok (assets, app) =>
    match (getContent db0 config).1 with
    | .error e => (.error e, (getContent db0 config).2)
    | .ok db1 =>
      match stageRouting config app with
      | .error e => (.error e, (getContent db0 config).2)
      | .ok (renderer, urls) =>
        let evs := (getContent db0 config).2
          ++ (if urls.isEmpty then [Event.warnNoURLs] else [])
        match (prerenderAll config renderer app assets urls).1 with
        | .error e => (.error e, evs ++ (prerenderAll config renderer app assets urls).2)
        | .ok _ => (.ok db1, evs ++ (prerenderAll config renderer app assets urls).2)

/-- `build(config)` from `build.js`: `rimraf.sync("dist")` (note: the literal
string `"dist"`, not `config.outdir`), start the ephemeral server, run the
`try` body; both the success path and the `catch` path close the server
exactly once and the `catch` rethrows the body's error unchanged —
so the close event follows the body unconditionally and the body's outcome
is the build's outcome. -/
def build (db0 : List ContentRecord) (config : Config) :
    Except Err (List ContentRecord) × List Event :=
  ((buildBody db0 config).1,
    [Event.cleaned "dist", Event.serverListen]
      ++ (buildBody db0 config).2 ++ [Event.serverClose])

/-! ## The pMap scheduler, as a transition system

`pMap(urls, mapper, {concurrency: 50})` (build.js line 192-204) starts at
most `concurrency` mapper invocations at once and starts the next pending
task whenever one finishes.  `PMapStep` is the induced nondeterministic
scheduler over `n` tasks: a state records how many tasks have been started
(`nextIndex`), which started tasks have unresolved results (`inFlight`) and
which have resolved (`done`).  Failures are not modelled here: this system
supports the claims about executions in which no task rejects. -/

/-- The concurrency bound passed to `pMap` in `build.js`. -/
def pMapConcurrency : Nat := 50

/-- Scheduler state of the bounded-concurrency fan-out. -/
structure PMapState where
  nextIndex : Nat
  inFlight : Finset Nat
  done : Finset Nat
deriving DecidableEq

/-- Initial scheduler state: nothing started. -/
def PMapState.init : PMapState := ⟨0, ∅, ∅⟩

/-- One scheduler step over `n` tasks: start the next task (only while the
number of unresolved invocations is below the concurrency bound), or resolve
an in-flight task. -/
inductive PMapStep (n : Nat) : PMapState → PMapState → Prop
  | start (s : PMapState) (hn : s.nextIndex < n)
      (hc : s.inFlight.card < pMapConcurrency) :
      PMapStep n s ⟨s.nextIndex + 1, insert s.nextIndex s.inFlight, s.done⟩
  | finish (s : PMapState) (i : Nat) (hi : i ∈ s.inFlight) :
      PMapStep n s ⟨s.nextIndex, s.inFlight.erase i, insert i s.done⟩

/-- States the scheduler can reach from the initial state. -/
def PMapReachable (n : Nat) (s : PMapState) : Prop :=
  Relation.ReflTransGen (PMapStep n) PMapState.init s

/-- A state in which the scheduler can take no further step. -/
def PMapTerminal (n : Nat) (s : PMapState) : Prop :=
  ∀ s', ¬ PMapStep n s s'

/-- Inductive invariant of the scheduler: no more tasks started than exist,
the started tasks are exactly the resolved plus the in-flight ones, and the
in-flight count respects the concurrency bound. -/
def PMapInv (n : Nat) (s : PMapState) : Prop :=
  s.nextIndex ≤ n ∧ s.done ∪ s.inFlight = Finset.range s.nextIndex ∧
    s.inFlight.card ≤ pMapConcurrency

/-! ## Auxiliary definitions: decidability, trace predicates, test fixtures -/

instance {ε α : Type} [DecidableEq ε] [DecidableEq α] : DecidableEq (Except ε α) :=
  fun a b =>
    match a, b with
    | .error x, .error y =>
      if h : x = y then .isTrue (by rw [h])
      else .isFalse (by intro hc; injection hc with h2; exact h h2)
    | .error _, .ok _ => .isFalse (by intro hc; cases hc)
    | .ok _, .error _ => .isFalse (by intro hc; cases hc)
    | .ok x, .ok y =>
      if h : x = y then .isTrue (by rw [h])
      else .isFalse (by intro hc; injection hc with h2; exact h h2)

/-- Events that can only be emitted by the body of the `try` block (never the
cleaning, server-start or server-close steps around it). -/
def Event.isBodyEvent : Event → Bool
  | .cleaned _ => false
  | .serverListen => false
  | .serverClose => false
  | _ => true

/-- Events belonging to the prerender fan-out: a `renderStatic` invocation or
an output-file write. -/
def Event.isPrerenderActivity : Event → Bool
  | .renderCall _ => true
  | .fileWrite _ _ => true
  | _ => false

/-- No `renderStatic` invocation and no output-file write occurs in the
trace. -/
def noPrerenderActivity (t : List Event) : Bool :=
  t.all fun e => !e.isPrerenderActivity

/-- No output file is written in the trace. -/
def noFileWrites (t : List Event) : Bool :=
  t.all fun e =>
    match e with
    | .fileWrite _ _ => false
    | _ => true

/-! Concrete plugins and configurations used as witnesses. -/

/-- A plugin carrying every capability the orchestrator checks up front, with
inert successful implementations; its resolver yields no URLs and it has no
`renderStatic`. -/
def noopFullPlugin : Plugin :=
  { name := "full", transform := true, collect := true, beforeBuild := none,
    build := some (.ok 0), buildForPrerendering := some (.ok 0),
    getRoutes := some fun _ => 0, resolveURLs := some fun _ => .ok [],
    renderStatic := none }

/-- A configuration whose output directory is `"out"`, not `"dist"`. -/
def outdirConfig : Config :=
  { path := "site", content := "content", outdir := "out", plugins := [],
    contentDirExists := true, files := [], processFile := fun _ => .ok [] }

/-- A configuration whose content directory does not exist. -/
def missingContentDirConfig : Config :=
  { path := "site", content := "content", outdir := "dist",
    plugins := [noopFullPlugin], contentDirExists := false, files := [],
    processFile := fun _ => .ok [] }

/-- A configuration whose content directory exists and yields one record for
its single file. -/
def ingestingConfig : Config :=
  { path := "site", content := "content", outdir := "dist",
    plugins := [noopFullPlugin], contentDirExists := true,
    files := [⟨"a.md"⟩],
    processFile := fun f => .ok [⟨f.name, "data"⟩] }

/-- A plugin supplying only the transform and collect chains. -/
def onlyChainPlugin : Plugin :=
  { name := "chain", transform := true, collect := true, beforeBuild := none,
    build := none, buildForPrerendering := none, getRoutes := none,
    resolveURLs := none, renderStatic := none }

/-- A configuration with no bundler-capable plugin. -/
def noBundlerConfig : Config :=
  { path := "site", content := "content", outdir := "dist",
    plugins := [onlyChainPlugin], contentDirExists := false, files := [],
    processFile := fun _ => .ok [] }

/-- A full plugin except for `getRoutes`. -/
def noRendererPlugin : Plugin :=
  { name := "norenderer", transform := true, collect := true, beforeBuild := none,
    build := some (.ok 0), buildForPrerendering := some (.ok 0),
    getRoutes := none, resolveURLs := some fun _ => .ok [],
    renderStatic := none }

/-- A configuration with no `getRoutes`-capable plugin. -/
def noRendererConfig : Config :=
  { path := "site", content := "content", outdir := "dist",
    plugins := [noRendererPlugin], contentDirExists := false, files := [],
    processFile := fun _ => .ok [] }

/-- A full plugin except for `resolveURLs`. -/
def noResolverPlugin : Plugin :=
  { name := "noresolver", transform := true, collect := true, beforeBuild := none,
    build := some (.ok 0), buildForPrerendering := some (.ok 0),
    getRoutes := some fun _ => 0, resolveURLs := none,
    renderStatic := none }

/-- A configuration with no `resolveURLs`-capable plugin. -/
def noResolverConfig : Config :=
  { path := "site", content := "content", outdir := "dist",
    plugins := [noResolverPlugin], contentDirExists := false, files := [],
    processFile := fun _ => .ok [] }

/-- A full plugin whose `transform` capability is absent. -/
def noTransformPlugin : Plugin :=
  { name := "notransform", transform := false, collect := true, beforeBuild := none,
    build := some (.ok 0), buildForPrerendering := some (.ok 0),
    getRoutes := some fun _ => 0, resolveURLs := some fun _ => .ok [],
    renderStatic := none }

/-- A configuration with no transform-capable plugin. -/
def noTransformConfig : Config :=
  { path := "site", content := "content", outdir := "dist",
    plugins := [noTransformPlugin], contentDirExists := true, files := [],
    processFile := fun _ => .ok [] }

/-- A full plugin whose `collect` capability is absent. -/
def noCollectPlugin : Plugin :=
  { name := "nocollect", transform := true, collect := false, beforeBuild := none,
    build := some (.ok 0), buildForPrerendering := some (.ok 0),
    getRoutes := some fun _ => 0, resolveURLs := some fun _ => .ok [],
    renderStatic := none }

/-- A configuration with no collect-capable plugin. -/
def noCollectConfig : Config :=
  { path := "site", content := "content", outdir := "dist",
    plugins := [noCollectPlugin], contentDirExists := true, files := [],
    processFile := fun _ => .ok [] }

/-- A plugin implementing `build` but not `buildForPrerendering`. -/
def onlyBuildPlugin : Plugin :=
  { name := "onlybuild", transform := true, collect := true, beforeBuild := none,
    build := some (.ok 7), buildForPrerendering := none, getRoutes := none,
    resolveURLs := none, renderStatic := none }

/-- A configuration whose only plugin implements `build` but not
`buildForPrerendering`. -/
def onlyBuildConfig : Config :=
  { path := "site", content := "content", outdir := "dist",
    plugins := [onlyBuildPlugin], contentDirExists := false, files := [],
    processFile := fun _ => .ok [] }

/-- A renderer whose `renderStatic` yields one file with a percent-encoded
path. -/
def encodedPathRenderer : Plugin :=
  { name := "encoded", transform := true, collect := true, beforeBuild := none,
    build := some (.ok 0), buildForPrerendering := some (.ok 0),
    getRoutes := some fun _ => 0, resolveURLs := some fun _ => .ok ["/a"],
    renderStatic := some fun _ _ _ => .ok [⟨"a%20b.html", "X"⟩] }

/-- A full plugin resolving one URL but lacking `renderStatic`. -/
def oneUrlNoRenderStaticPlugin : Plugin :=
  { name := "oneurl", transform := true, collect := true, beforeBuild := none,
    build := some (.ok 0), buildForPrerendering := some (.ok 0),
    getRoutes := some fun _ => 0, resolveURLs := some fun _ => .ok ["/a"],
    renderStatic := none }

/-- A configuration resolving one URL whose renderer lacks `renderStatic`. -/
def oneUrlNoRenderStaticConfig : Config :=
  { path := "site", content := "content", outdir := "dist",
    plugins := [oneUrlNoRenderStaticPlugin], contentDirExists := false,
    files := [], processFile := fun _ => .ok [] }

lemma pMapInv_init (n : Nat) : PMapInv n PMapState.init := by
  refine ⟨Nat.zero_le n, ?_, ?_⟩ <;> simp [PMapState.init, pMapConcurrency]

lemma pMapInv_step {n : Nat} {s s' : PMapState} (hstep : PMapStep n s s')
    (hinv : PMapInv n s) : PMapInv n s' := by
  obtain ⟨hle, hunion, hcard⟩ := hinv
  cases hstep with
  | start hn hc =>
    refine ⟨hn, ?_, ?_⟩
    · show s.done ∪ insert s.nextIndex s.inFlight = _
      rw [Finset.union_insert, hunion, Finset.range_succ]
    · exact Nat.le_trans (Finset.card_insert_le _ _) hc
  | finish i hi =>
    refine ⟨hle, ?_, ?_⟩
    · show insert i s.done ∪ s.inFlight.erase i = _
      rw [Finset.insert_union, ← Finset.union_insert, Finset.insert_erase hi, hunion]
    · exact Nat.le_trans Finset.card_erase_le hcard

lemma pMapInv_reachable {n : Nat} {s : PMapState} (h : PMapReachable n s) :
    PMapInv n s := by
  induction h with
  | refl => exact pMapInv_init n
  | tail _ hstep ih => exact pMapInv_step hstep ih

lemma pMapTerminal_done {n : Nat} {s : PMapState} (hreach : PMapReachable n s)
    (hterm : PMapTerminal n s) : s.done = Finset.range n := by
  obtain ⟨hle, hunion, _⟩ := pMapInv_reachable hreach
  have hempty : s.inFlight = ∅ := by
    by_contra h
    obtain ⟨i, hi⟩ := Finset.nonempty_iff_ne_empty.mpr h
    exact hterm _ (PMapStep.finish s i hi)
  have hfull : s.nextIndex = n := by
    rcases Nat.lt_or_ge s.nextIndex n with hlt | hge
    · exact absurd (PMapStep.start s hlt (by rw [hempty]; decide)) (hterm _)
    · exact Nat.le_antisymm hle hge
  rw [hempty, Finset.union_empty] at hunion
  rw [hunion, hfull]

/-! ## Classification of trace events -/

lemma writeRendered_events (outdir : String) (files : List RenderedFile) :
    ∀ e ∈ (writeRendered outdir files).2, e.isBodyEvent = true := by
  induction files with
  | nil => simp [writeRendered]
  | cons f rest ih =>
    intro e he
    rw [writeRendered] at he
    cases hdec : decodeURIComponent f.path with
    | none => rw [hdec] at he; simp at he
    | some p =>
      rw [hdec] at he
      rcases List.mem_cons.mp he with h | h
      · rw [h]; rfl
      · exact ih e h

lemma prerenderFileAndDependencies_events (config : Config) (renderer : Plugin)
    (app : App) (assets : Assets) (location : Location) :
    ∀ e ∈ (prerenderFileAndDependencies config renderer app assets location).2,
      e.isBodyEvent = true := by
  intro e he
  rw [prerenderFileAndDependencies] at he
  split at he
  · simp at he
  · split at he
    · simp at he
      rw [he]; rfl
    · rename_i files _
      rcases List.mem_cons.mp he with h | h
      · rw [h]; rfl
      · exact writeRendered_events config.outdir files e h

lemma prerenderAll_events (config : Config) (renderer : Plugin) (app : App)
    (assets : Assets) (urls : List Location) :
    ∀ e ∈ (prerenderAll config renderer app assets urls).2, e.isBodyEvent = true := by
  induction urls with
  | nil => simp [prerenderAll]
  | cons u rest ih =>
    intro e he
    rw [prerenderAll] at he
    split at he
    · exact prerenderFileAndDependencies_events config renderer app assets u e he
    · rcases List.mem_append.mp he with h | h
      · exact prerenderFileAndDependencies_events config renderer app assets u e h
      · exact ih e h

lemma getContent_events (db : List ContentRecord) (config : Config) :
    ∀ e ∈ (getContent db config).2, e.isBodyEvent = true := by
  intro e he
  rw [getContent] at he
  split at he
  · simp at he
  · split at he
    · simp at he
    · split at he
      · split at he <;> simp at he
      · simp at he
        rw [he]; rfl

lemma buildBody_events (db0 : List ContentRecord) (config : Config) :
    ∀ e ∈ (buildBody db0 config).2, e.isBodyEvent = true := by
  intro e he
  rw [buildBody] at he
  split at he
  · simp at he
  · rename_i assets app _
    split at he
    · exact getContent_events db0 config e he
    · rename_i db1 _
      split at he
      · exact getContent_events db0 config e he
      · rename_i renderer urls _
        simp only at he
        split at he <;> split at he <;>
        · rcases List.mem_append.mp he with h | h
          · rcases List.mem_append.mp h with h2 | h2
            · exact getContent_events db0 config e h2
            · first
              | (simp at h2; rw [h2]; rfl)
              | simp at h2
          · exact prerenderAll_events config renderer app assets urls e h

lemma serverClose_not_mem_buildBody (db0 : List ContentRecord) (config : Config) :
    Event.serverClose ∉ (buildBody db0 config).2 := by
  intro h
  have := buildBody_events db0 config _ h
  simp [Event.isBodyEvent] at this

/-! ## Claims -/

/-- C1: on every execution of `build` — success or failure of any phase —
the ephemeral server is closed exactly once before `build` returns, and the
build's outcome (in particular any error) is exactly the outcome of the
`try` body, propagated unchanged (not wrapped or swallowed). -/
theorem build_closes_server_exactly_once (db0 : List ContentRecord) (config : Config) :
    (build db0 config).2.count Event.serverClose = 1 ∧
    (build db0 config).1 = (buildBody db0 config).1 := by
  refine ⟨?_, rfl⟩
  have h1 : ([Event.cleaned "dist", Event.serverListen]).count Event.serverClose = 0 := rfl
  have h2 : ([Event.serverClose]).count Event.serverClose = 1 := rfl
  have h0 : ((buildBody db0 config).2).count Event.serverClose = 0 :=
    List.count_eq_zero.mpr (serverClose_not_mem_buildBody db0 config)
  simp only [build, List.count_append, h0, h1, h2]

/-- C2 counterexample: for a configuration whose `outdir` is `"out"`, no
cleaning of the configured output directory ever happens — `build` calls
`rimraf.sync("dist")` on the hardcoded path `"dist"` instead of
`config.outdir`. -/
theorem cleaning_ignores_configured_outdir :
    Event.cleaned outdirConfig.outdir ∉ (build [] outdirConfig).2 := by decide

/-- C2 amended: the cleaning phase of `build` removes the hardcoded directory
`"dist"` (not `config.outdir`), and it does so before any other phase runs:
the very first observable event of every build is the cleaning of `"dist"`. -/
theorem build_cleans_dist_before_other_phases
    (db0 : List ContentRecord) (config : Config) :
    (build db0 config).2.head? = some (Event.cleaned "dist") := rfl

/-- C3 counterexample: with a configuration whose content directory does not
exist, a ContentRecord already in the store before the build survives into
the post-ingestion store unchanged — `db.destroy()` only runs under
`if (contentPath)`, so the store is not rebuilt. -/
theorem stale_record_survives_missing_content_dir :
    (build [⟨"stale", "old"⟩] missingContentDirConfig).1 =
      .ok [⟨"stale", "old"⟩] := rfl

/-- C3 amended: the store is destroyed and fully rebuilt only when the
content directory exists: in that case the post-ingestion store is exactly
the records produced by this build's `processFile` runs, independent of
every record present before the build.  When the directory is missing the
previous store survives (see the counterexample). -/
theorem getContent_rebuilds_store_when_dir_exists (db : List ContentRecord)
    (config : Config)
    (htr : (config.plugins.filter fun p => p.transform).isEmpty = false)
    (hco : (config.plugins.filter fun p => p.collect).isEmpty = false)
    (hdir : config.contentDirExists = true) :
    getContent db config = (processAll config.processFile config.files, []) := by
  simp only [getContent, htr, hco, hdir, Bool.false_eq_true, if_false, if_true]
  cases h : processAll config.processFile config.files <;> simp [h]

lemma head?_filter_spec {α : Type} {f : α → Bool} {l : List α} {x : α}
    (h : (l.filter f).head? = some x) : x ∈ l ∧ f x = true := by
  cases hfil : l.filter f with
  | nil => rw [hfil] at h; simp at h
  | cons y ys =>
    rw [hfil] at h
    simp only [List.head?_cons, Option.some.injEq] at h
    have hmem : y ∈ l.filter f := by rw [hfil]; exact List.mem_cons_self y ys
    rw [← h]
    exact ⟨(List.mem_filter.mp hmem).1, (List.mem_filter.mp hmem).2⟩

lemma getContent_events_warn (db : List ContentRecord) (config : Config) :
    ∀ e ∈ (getContent db config).2, e = Event.warnNoContentDir := by
  intro e he
  rw [getContent] at he
  split at he
  · simp at he
  · split at he
    · simp at he
    · split at he
      · split at he <;> simp at he
      · simp at he; exact he

lemma noPrerenderActivity_of_forall {t : List Event}
    (h : ∀ e ∈ t, e.isPrerenderActivity = false) : noPrerenderActivity t = true := by
  rw [noPrerenderActivity, List.all_eq_true]
  intro e he
  rw [h e he]
  rfl

lemma stageBundle_error_of_no_bundler (config : Config)
    (hhooks : runBeforeBuild config.plugins = .ok ())
    (hnob : ∀ p ∈ config.plugins,
      p.build.isNone = true ∨ p.buildForPrerendering.isNone = true) :
    stageBundle config = .error .bundlerBuild := by
  cases hsel : selectBundler config.plugins with
  | none => simp [stageBundle, hhooks, hsel]
  | some b =>
    obtain ⟨hmem, hsome⟩ := head?_filter_spec hsel
    rcases hnob b hmem with hb | hb
    · rw [Option.isNone_iff_eq_none] at hb
      simp [stageBundle, hhooks, hsel, hb]
    · rw [Option.isNone_iff_eq_none] at hb
      rw [hb] at hsome
      simp at hsome

lemma stageRouting_error_of_no_renderer (config : Config) (app : App)
    (hnor : ∀ p ∈ config.plugins, p.getRoutes.isNone = true) :
    stageRouting config app = .error .rendererGetRoutes := by
  have hfil : config.plugins.filter (fun p => p.getRoutes.isSome) = [] :=
    List.filter_eq_nil_iff.mpr fun p hp => by
      rw [Option.isNone_iff_eq_none.mp (hnor p hp)]; simp
  simp [stageRouting, selectRenderer, hfil]

lemma stageRouting_error_of_no_resolver (config : Config) (app : App)
    (renderer : Plugin) (g : App → Routes)
    (hsel : selectRenderer config.plugins = some renderer)
    (hg : renderer.getRoutes = some g)
    (hnor : ∀ p ∈ config.plugins, p.resolveURLs.isNone = true) :
    stageRouting config app = .error .urlsResolver := by
  have hfil : config.plugins.filter (fun p => p.resolveURLs.isSome) = [] :=
    List.filter_eq_nil_iff.mpr fun p hp => by
      rw [Option.isNone_iff_eq_none.mp (hnor p hp)]; simp
  simp [stageRouting, hsel, hg, selectResolver, hfil]

theorem getContent_rebuilds_store_when_dir_exists_witness :
    (ingestingConfig.plugins.filter fun p => p.transform).isEmpty = false ∧
    (ingestingConfig.plugins.filter fun p => p.collect).isEmpty = false ∧
    ingestingConfig.contentDirExists = true ∧
    getContent [⟨"stale", "old"⟩] ingestingConfig =
      (.ok [⟨"a.md", "data"⟩], []) := by
  refine ⟨rfl, rfl, rfl, ?_⟩
  rw [getContent_rebuilds_store_when_dir_exists [⟨"stale", "old"⟩] ingestingConfig
    rfl rfl rfl]
  rfl

/-- C4: when no plugin supplies the bundler capability, or none supplies the
renderer (`getRoutes`) capability, or none supplies the URL-resolver
capability, `build` fails with the error naming that missing capability,
before the prerender fan-out runs: no `renderStatic` call and no output-file
write happens.  (For the renderer/resolver cases the phases checked earlier
must succeed for the build to reach the corresponding check.) -/
theorem missing_singleton_role_fails_before_prerender
    (db0 : List ContentRecord) (config : Config)
    (hhooks : runBeforeBuild config.plugins = .ok ()) :
    ((∀ p ∈ config.plugins,
        p.build.isNone = true ∨ p.buildForPrerendering.isNone = true) →
      (build db0 config).1 = .error .bundlerBuild ∧
      noPrerenderActivity (build db0 config).2 = true) ∧
    (∀ assets app db1, stageBundle config = .ok (assets, app) →
      (getContent db0 config).1 = .ok db1 →
      (∀ p ∈ config.plugins, p.getRoutes.isNone = true) →
      (build db0 config).1 = .error .rendererGetRoutes ∧
      noPrerenderActivity (build db0 config).2 = true) ∧
    (∀ assets app db1 renderer g, stageBundle config = .ok (assets, app) →
      (getContent db0 config).1 = .ok db1 →
      selectRenderer config.plugins = some renderer →
      renderer.getRoutes = some g →
      (∀ p ∈ config.plugins, p.resolveURLs.isNone = true) →
      (build db0 config).1 = .error .urlsResolver ∧
      noPrerenderActivity (build db0 config).2 = true) := by
  refine ⟨?_, ?_, ?_⟩
  · intro hnob
    have hsb := stageBundle_error_of_no_bundler config hhooks hnob
    have hb : buildBody db0 config = (.error .bundlerBuild, []) := by
      simp [buildBody, hsb]
    exact ⟨by simp [build, hb], by simp only [build, hb]; rfl⟩
  · intro assets app db1 hsb hgc hnor
    have hsr := stageRouting_error_of_no_renderer config app hnor
    have hb : buildBody db0 config =
        (.error .rendererGetRoutes, (getContent db0 config).2) := by
      simp [buildBody, hsb, hgc, hsr]
    refine ⟨by simp [build, hb], ?_⟩
    apply noPrerenderActivity_of_forall
    intro e he
    simp only [build, hb] at he
    rcases List.mem_append.mp he with h1 | h1
    · rcases List.mem_append.mp h1 with h2 | h2
      · simp at h2
        rcases h2 with h2 | h2 <;> (rw [h2]; rfl)
      · rw [getContent_events_warn db0 config e h2]; rfl
    · simp at h1
      rw [h1]; rfl
  · intro assets app db1 renderer g hsb hgc hselr hg hnor
    have hsr := stageRouting_error_of_no_resolver config app renderer g hselr hg hnor
    have hb : buildBody db0 config =
        (.error .urlsResolver, (getContent db0 config).2) := by
      simp [buildBody, hsb, hgc, hsr]
    refine ⟨by simp [build, hb], ?_⟩
    apply noPrerenderActivity_of_forall
    intro e he
    simp only [build, hb] at he
    rcases List.mem_append.mp he with h1 | h1
    · rcases List.mem_append.mp h1 with h2 | h2
      · simp at h2
        rcases h2 with h2 | h2 <;> (rw [h2]; rfl)
      · rw [getContent_events_warn db0 config e h2]; rfl
    · simp at h1
      rw [h1]; rfl

theorem missing_singleton_role_fails_before_prerender_witness :
    runBeforeBuild noBundlerConfig.plugins = .ok () ∧
    (build [] noBundlerConfig).1 = .error .bundlerBuild ∧
    noPrerenderActivity (build [] noBundlerConfig).2 = true ∧
    (build [] noRendererConfig).1 = .error .rendererGetRoutes ∧
    (build [] noResolverConfig).1 = .error .urlsResolver := by
  refine ⟨rfl, ?_, ?_, ?_, ?_⟩
  · exact ((missing_singleton_role_fails_before_prerender [] noBundlerConfig
      rfl).1 (by decide)).1
  · exact ((missing_singleton_role_fails_before_prerender [] noBundlerConfig
      rfl).1 (by decide)).2
  · exact ((missing_singleton_role_fails_before_prerender [] noRendererConfig
      rfl).2.1 0 0 [] rfl rfl (by decide)).1
  · exact ((missing_singleton_role_fails_before_prerender [] noResolverConfig
      rfl).2.2 0 0 [] noResolverPlugin (fun _ => 0) rfl rfl rfl rfl (by decide)).1

/-- C5: when no plugin exposes a transform capability (resp. no plugin
exposes a collect capability), the build fails with the error whose message
contains "transform plugin" (resp. "collector plugin"), and no file write has
been performed up to that failure.  (The bundling phases run before
ingestion, so they must succeed for the build to reach these checks.) -/
theorem missing_chain_role_fails_with_named_error
    (db0 : List ContentRecord) (config : Config) (assets : Assets) (app : App)
    (hsb : stageBundle config = .ok (assets, app)) :
    ((config.plugins.filter fun p => p.transform).isEmpty = true →
      (build db0 config).1 = .error .transformRequired ∧
      Err.transformRequired.message =
        "Phenomic expects at least a " ++ "transform plugin" ∧
      noFileWrites (build db0 config).2 = true) ∧
    ((config.plugins.filter fun p => p.collect).isEmpty = true →
      (config.plugins.filter fun p => p.transform).isEmpty = false →
      (build db0 config).1 = .error .collectorRequired ∧
      Err.collectorRequired.message =
        "Phenomic expects at least a " ++ "collector plugin" ∧
      noFileWrites (build db0 config).2 = true) := by
  constructor
  · intro htr
    have hgc : getContent db0 config = (.error .transformRequired, []) := by
      simp [getContent, htr]
    have hb : buildBody db0 config = (.error .transformRequired, []) := by
      simp [buildBody, hsb, hgc]
    exact ⟨by simp [build, hb], rfl, by simp only [build, hb]; rfl⟩
  · intro hco htr
    have hgc : getContent db0 config = (.error .collectorRequired, []) := by
      simp [getContent, htr, hco]
    have hb : buildBody db0 config = (.error .collectorRequired, []) := by
      simp [buildBody, hsb, hgc]
    exact ⟨by simp [build, hb], rfl, by simp only [build, hb]; rfl⟩

theorem missing_chain_role_fails_with_named_error_witness :
    stageBundle noTransformConfig = .ok (0, 0) ∧
    (build [] noTransformConfig).1 = .error .transformRequired ∧
    noFileWrites (build [] noTransformConfig).2 = true ∧
    (build [] noCollectConfig).1 = .error .collectorRequired := by
  refine ⟨rfl, ?_, ?_, ?_⟩
  · exact ((missing_chain_role_fails_with_named_error [] noTransformConfig
      0 0 rfl).1 rfl).1
  · exact ((missing_chain_role_fails_with_named_error [] noTransformConfig
      0 0 rfl).1 rfl).2.2
  · exact ((missing_chain_role_fails_with_named_error [] noCollectConfig
      0 0 rfl).2 rfl rfl).1

lemma renderCall_mem_of_prerender_ok (config : Config) (renderer : Plugin)
    (app : App) (assets : Assets) (u : Location)
    (h : (prerenderFileAndDependencies config renderer app assets u).1 = .ok ()) :
    Event.renderCall u ∈
      (prerenderFileAndDependencies config renderer app assets u).2 := by
  cases hrs : renderer.renderStatic with
  | none => simp [prerenderFileAndDependencies, hrs] at h
  | some rs =>
    cases hres : rs app assets u with
    | error e => simp [prerenderFileAndDependencies, hrs, hres] at h
    | ok files => simp [prerenderFileAndDependencies, hrs, hres]

lemma prerenderAll_ok_of_each_ok (config : Config) (renderer : Plugin)
    (app : App) (assets : Assets) :
    ∀ urls : List Location,
      (∀ u ∈ urls,
        (prerenderFileAndDependencies config renderer app assets u).1 = .ok ()) →
      (prerenderAll config renderer app assets urls).1 = .ok () ∧
      ∀ u ∈ urls,
        Event.renderCall u ∈ (prerenderAll config renderer app assets urls).2 := by
  intro urls
  induction urls with
  | nil => exact fun _ => ⟨rfl, by simp⟩
  | cons u rest ih =>
    intro h
    have hu := h u (List.mem_cons_self u rest)
    obtain ⟨hok, hmem⟩ := ih fun v hv => h v (List.mem_cons_of_mem u hv)
    constructor
    · simp [prerenderAll, hu, hok]
    · intro v hv
      simp only [prerenderAll, hu]
      rcases List.mem_cons.mp hv with hveq | hvrest
      · subst hveq
        exact List.mem_append.mpr
          (Or.inl (renderCall_mem_of_prerender_ok config renderer app assets v hu))
      · exact List.mem_append.mpr (Or.inr (hmem v hvrest))

/-- C6: the prerender fan-out keeps at most 50 `renderStatic`-plus-write
operations in flight at any instant (every state the `pMap` scheduler can
reach has at most 50 unresolved invocations), and when no render or write
fails every URL completes: a terminal state has every task resolved, and in
the trace model each URL in the list is rendered, the fan-out succeeding. -/
theorem prerender_fanout_concurrency_cap (n : Nat) (s : PMapState)
    (hreach : PMapReachable n s) :
    s.inFlight.card ≤ 50 ∧
    (PMapTerminal n s → s.done = Finset.range n) ∧
    (∀ config renderer app assets urls,
      (∀ u ∈ urls,
        (prerenderFileAndDependencies config renderer app assets u).1 = .ok ()) →
      (prerenderAll config renderer app assets urls).1 = .ok () ∧
      ∀ u ∈ urls,
        Event.renderCall u ∈ (prerenderAll config renderer app assets urls).2) := by
  refine ⟨(pMapInv_reachable hreach).2.2, pMapTerminal_done hreach, ?_⟩
  intro config renderer app assets urls h
  exact prerenderAll_ok_of_each_ok config renderer app assets urls h

theorem prerender_fanout_concurrency_cap_witness :
    PMapReachable 200 PMapState.init ∧ PMapState.init.inFlight.card ≤ 50 :=
  ⟨Relation.ReflTransGen.refl,
    (prerender_fanout_concurrency_cap 200 PMapState.init
      Relation.ReflTransGen.refl).1⟩

lemma writeRendered_mem (outdir : String) :
    ∀ files : List RenderedFile,
      (∀ g ∈ files, (decodeURIComponent g.path).isSome = true) →
      ∀ f ∈ files, ∀ p, decodeURIComponent f.path = some p →
        Event.fileWrite (pathJoin outdir p) f.contents ∈
          (writeRendered outdir files).2 := by
  intro files
  induction files with
  | nil => intro _ f hf; simp at hf
  | cons g rest ih =>
    intro hdec f hf p hp
    have hg := hdec g (List.mem_cons_self g rest)
    obtain ⟨q, hq⟩ := Option.isSome_iff_exists.mp hg
    simp only [writeRendered, hq]
    rcases List.mem_cons.mp hf with hfeq | hfr
    · subst hfeq
      rw [hq] at hp
      injection hp with hqp
      subst hqp
      exact List.mem_cons_self _ _
    · exact List.mem_cons_of_mem _
        (ih (fun x hx => hdec x (List.mem_cons_of_mem g hx)) f hfr p hp)

/-- C7: every RenderedFile returned by `renderStatic` is written to the path
obtained by percent-decoding the file's path and joining it under the
configured output directory. -/
theorem renderedFile_written_to_decoded_path (config : Config)
    (renderer : Plugin) (app : App) (assets : Assets) (location : Location)
    (rs : App → Assets → Location → Except Err (List RenderedFile))
    (files : List RenderedFile)
    (hrs : renderer.renderStatic = some rs)
    (hres : rs app assets location = .ok files)
    (hdec : ∀ g ∈ files, (decodeURIComponent g.path).isSome = true) :
    ∀ f ∈ files, ∀ p, decodeURIComponent f.path = some p →
      Event.fileWrite (pathJoin config.outdir p) f.contents ∈
        (prerenderFileAndDependencies config renderer app assets location).2 := by
  intro f hf p hp
  simp only [prerenderFileAndDependencies, hrs, hres]
  exact List.mem_cons_of_mem _ (writeRendered_mem config.outdir files hdec f hf p hp)

theorem renderedFile_written_to_decoded_path_witness :
    decodeURIComponent "a%20b.html" = some "a b.html" ∧
    Event.fileWrite "out/a b.html" "X" ∈
      (prerenderFileAndDependencies outdirConfig encodedPathRenderer 0 0 "/a").2 := by
  refine ⟨rfl, ?_⟩
  have hpj : pathJoin outdirConfig.outdir "a b.html" = "out/a b.html" := by decide
  rw [← hpj]
  exact renderedFile_written_to_decoded_path outdirConfig encodedPathRenderer
    0 0 "/a" (fun _ _ _ => .ok [⟨"a%20b.html", "X"⟩]) [⟨"a%20b.html", "X"⟩]
    rfl rfl (by decide) ⟨"a%20b.html", "X"⟩ (List.mem_cons_self _ _)
    "a b.html" rfl

/-- C8: when `resolveURLs` returns the empty list, the build completes
successfully (the server closed exactly once on the success path), the
no-URLs warning is emitted, and no `renderStatic` call and no page-file
write happens. -/
theorem empty_urls_build_succeeds (db0 : List ContentRecord) (config : Config)
    (assets : Assets) (app : App) (db1 : List ContentRecord) (renderer : Plugin)
    (hsb : stageBundle config = .ok (assets, app))
    (hgc : (getContent db0 config).1 = .ok db1)
    (hsr : stageRouting config app = .ok (renderer, [])) :
    (build db0 config).1 = .ok db1 ∧
    Event.warnNoURLs ∈ (build db0 config).2 ∧
    noPrerenderActivity (build db0 config).2 = true ∧
    (build db0 config).2.count Event.serverClose = 1 := by
  have hb : buildBody db0 config =
      (.ok db1, (getContent db0 config).2 ++ [Event.warnNoURLs]) := by
    simp [buildBody, hsb, hgc, hsr, prerenderAll]
  refine ⟨by simp [build, hb], by simp [build, hb], ?_, ?_⟩
  · apply noPrerenderActivity_of_forall
    intro e he
    simp only [build, hb] at he
    rcases List.mem_append.mp he with h1 | h1
    · rcases List.mem_append.mp h1 with h2 | h2
      · simp at h2
        rcases h2 with h2 | h2 <;> (rw [h2]; rfl)
      · rcases List.mem_append.mp h2 with h3 | h3
        · rw [getContent_events_warn db0 config e h3]; rfl
        · simp at h3
          rw [h3]; rfl
    · simp at h1
      rw [h1]; rfl
  · have h0 : ((buildBody db0 config).2).count Event.serverClose = 0 :=
      List.count_eq_zero.mpr (serverClose_not_mem_buildBody db0 config)
    simp only [build, List.count_append, h0]
    rfl

theorem empty_urls_build_succeeds_witness :
    stageRouting ingestingConfig 0 = .ok (noopFullPlugin, []) ∧
    (build [] ingestingConfig).1 = .ok [⟨"a.md", "data"⟩] ∧
    Event.warnNoURLs ∈ (build [] ingestingConfig).2 ∧
    noPrerenderActivity (build [] ingestingConfig).2 = true := by
  refine ⟨rfl, ?_, ?_, ?_⟩
  · exact (empty_urls_build_succeeds [] ingestingConfig 0 0 [⟨"a.md", "data"⟩]
      noopFullPlugin rfl rfl rfl).1
  · exact (empty_urls_build_succeeds [] ingestingConfig 0 0 [⟨"a.md", "data"⟩]
      noopFullPlugin rfl rfl rfl).2.1
  · exact (empty_urls_build_succeeds [] ingestingConfig 0 0 [⟨"a.md", "data"⟩]
      noopFullPlugin rfl rfl rfl).2.2.1

lemma head?_filter_eq_find? {α : Type} (f : α → Bool) :
    ∀ l : List α, (l.filter f).head? = l.find? f := by
  intro l
  induction l with
  | nil => rfl
  | cons x xs ih =>
    cases hx : f x with
    | true => simp [List.filter_cons, List.find?_cons, hx]
    | false => simp [List.filter_cons, List.find?_cons, hx, ih]

/-- C9: the bundler is the first plugin in registration order exposing
`buildForPrerendering`; a selected bundler always has `buildForPrerendering`
(so a plugin exposing only `build` is never selected); and when no plugin
exposes `buildForPrerendering` the build fails with the error whose message
names `build` — even if some registered plugin implements `build`. -/
theorem bundler_is_first_buildForPrerendering_plugin
    (db0 : List ContentRecord) (config : Config)
    (hhooks : runBeforeBuild config.plugins = .ok ()) :
    selectBundler config.plugins =
      config.plugins.find? (fun p => p.buildForPrerendering.isSome) ∧
    (∀ b, selectBundler config.plugins = some b →
      b.buildForPrerendering.isSome = true) ∧
    ((∀ p ∈ config.plugins, p.buildForPrerendering.isNone = true) →
      (build db0 config).1 = .error .bundlerBuild ∧
      Err.bundlerBuild.message =
        "a bundler is required (plugin implementing \x60" ++ "build" ++ "\x60)") := by
  refine ⟨head?_filter_eq_find? _ config.plugins, ?_, ?_⟩
  · intro b hb
    exact (head?_filter_spec hb).2
  · intro hnobfp
    have hnob : ∀ p ∈ config.plugins,
        p.build.isNone = true ∨ p.buildForPrerendering.isNone = true :=
      fun p hp => Or.inr (hnobfp p hp)
    have hsb := stageBundle_error_of_no_bundler config hhooks hnob
    have hb : buildBody db0 config = (.error .bundlerBuild, []) := by
      simp [buildBody, hsb]
    exact ⟨by simp [build, hb], rfl⟩

theorem bundler_is_first_buildForPrerendering_plugin_witness :
    onlyBuildPlugin.build.isSome = true ∧
    selectBundler onlyBuildConfig.plugins = none ∧
    (build [] onlyBuildConfig).1 = .error .bundlerBuild := by
  refine ⟨rfl, rfl, ?_⟩
  exact ((bundler_is_first_buildForPrerendering_plugin [] onlyBuildConfig
    rfl).2.2 (by decide)).1

/-- C10: the presence of `renderStatic` on the selected renderer is checked
only inside each per-URL prerender call: when the first `getRoutes` plugin
lacks `renderStatic`, the build fails with the renderer-required error as
soon as at least one URL resolves, but completes successfully when
`resolveURLs` returns the empty list. -/
theorem renderStatic_checked_per_url_not_up_front
    (db0 : List ContentRecord) (config : Config) (assets : Assets) (app : App)
    (db1 : List ContentRecord) (renderer : Plugin) (urls : List Location)
    (hsb : stageBundle config = .ok (assets, app))
    (hgc : (getContent db0 config).1 = .ok db1)
    (hsr : stageRouting config app = .ok (renderer, urls))
    (hnors : renderer.renderStatic = none) :
    (urls = [] → (build db0 config).1 = .ok db1) ∧
    (urls ≠ [] → (build db0 config).1 = .error .rendererRenderStatic) := by
  constructor
  · intro hnil
    subst hnil
    have hb : buildBody db0 config =
        (.ok db1, (getContent db0 config).2 ++ [Event.warnNoURLs]) := by
      simp [buildBody, hsb, hgc, hsr, prerenderAll]
    simp [build, hb]
  · intro hne
    obtain ⟨u, rest, hurls⟩ := List.exists_cons_of_ne_nil hne
    subst hurls
    have hpre : prerenderAll config renderer app assets (u :: rest) =
        (.error .rendererRenderStatic, []) := by
      simp [prerenderAll, prerenderFileAndDependencies, hnors]
    have hb : (buildBody db0 config).1 = .error .rendererRenderStatic := by
      simp [buildBody, hsb, hgc, hsr, hpre]
    simp [build] at hb ⊢
    exact hb

theorem renderStatic_checked_per_url_not_up_front_witness :
    noopFullPlugin.renderStatic.isNone = true ∧
    (build [] missingContentDirConfig).1 = .ok [] ∧
    (build [] oneUrlNoRenderStaticConfig).1 = .error .rendererRenderStatic := by
  refine ⟨rfl, ?_, ?_⟩
  · exact (renderStatic_checked_per_url_not_up_front [] missingContentDirConfig
      0 0 [] noopFullPlugin [] rfl rfl rfl rfl).1 rfl
  · exact (renderStatic_checked_per_url_not_up_front [] oneUrlNoRenderStaticConfig
      0 0 [] oneUrlNoRenderStaticPlugin ["/a"] rfl rfl rfl rfl).2 (by simp)

end Phenomic
